import Mathlib

/-!
Shallow embedding of the daily stock-price ingestion scripts:

* `alpha_vantage_daily_stock_price_update.py` — single-date run (run 1)
* `alpha_vantage_stocks_data_update_for_several_days.py` — multi-date run (run 2)
* `daily_stock_price_update_for_missing_data_in_alphavantage_using_yfinance.py`
  — fallback recovery run (run 3)
* `trial_process/take_data_from_ticker_file_save_in_csv_and_log_file.py`
  — file-driven batched variant

Conventions of the embedding:

* Monetary / time quantities are rationals (`ℚ`); Python float values coming
  out of JSON are abstracted by whether `float()` coerces them (`Raw`).
* Fallible Python code is `Except String` / `Option`; a run that dies with an
  uncaught exception is `none`.
* The job table, the price table and the per-run fetch cache are association
  lists, mirroring the SQL rows and Python dicts they embed.
* External effects (HTTP fetches, injected insert failures) are supplied by an
  `Env` record so that runs are pure functions of their inputs.
-/

namespace StockUpdate

/-- Job status as stored in `pipelines.stocks_daily_jobs.status`. -/
inductive Status where
  | PENDING
  | SUCCESS
  | FAILED
deriving DecidableEq, Repr

/-- One row of `pipelines.stocks_daily_jobs` as loaded by the job query
(`job_id`, `symbol`, `trade_date`); dates are ISO `YYYY-MM-DD` strings. -/
structure Job where
  job_id : Nat
  symbol : String
  trade_date : String
deriving DecidableEq, Repr

/-- A raw scalar field of a provider JSON entry, abstracted by how Python
`float()` treats it: `numStr q` is a (nonempty, hence truthy) numeric string
that `float()` parses to `q`; `badStr s` is a string `float()` rejects with
`ValueError`; `null` is JSON null / Python `None` (`float(None)` raises
`TypeError`). -/
inductive Raw where
  | null
  | numStr (q : ℚ)
  | badStr (s : String)
deriving DecidableEq, Repr

/-- `float(v)` on a raw scalar. -/
def pyFloat : Raw → Except String ℚ
  | .numStr q => .ok q
  | .null => .error "TypeError: float argument was None"
  | .badStr s => .error ("ValueError: could not convert string to float: " ++ s)

/-- `int(v)` on a raw scalar: integer-looking numeric strings parse, the
rest raise. -/
def pyInt : Raw → Except String ℤ
  | .numStr q => if q.den = 1 then .ok q.num else .error "ValueError: invalid literal for int"
  | .null => .error "TypeError: int argument was None"
  | .badStr s => .error ("ValueError: invalid literal for int: " ++ s)

/-- Python truthiness of a raw scalar (`None` and the empty string are falsy;
numeric strings are nonempty, hence truthy). -/
def truthy : Raw → Bool
  | .null => false
  | .numStr _ => true
  | .badStr s => s ≠ ""

/-- `round(q, 4)`: round half to even at the 4th decimal (Python `round`
semantics on exact values). Computed on numerator and denominator: with
`n / d = q * 10000` and `f = ⌊n / d⌋`, the remainder `r = n/d − f` is
compared against one half via `2(n − fd)` versus `d`, and ties go to the
even integer. -/
def round4 (q : ℚ) : ℚ :=
  let n := q.num * 10000
  let d : ℤ := (q.den : ℤ)
  let f := Int.fdiv n d
  let rem2 := 2 * (n - f * d)
  let i := if rem2 < d then f
    else if d < rem2 then f + 1
    else if f % 2 = 0 then f else f + 1
  mkRat i 10000

/-- `int(q)` on a number: truncation toward zero. -/
def pyTrunc (q : ℚ) : ℤ := if 0 ≤ q then Rat.floor q else Rat.ceil q

/-- `symbol.upper()`: uppercase every character. -/
def pyUpper (s : String) : String := ⟨s.data.map Char.toUpper⟩

/-- One raw per-date provider entry, e.g.
`[("1. open", numStr 123.45), ...]`. -/
abbrev RawEntry := List (String × Raw)

/-- A fetched time series: ISO date → raw entry
(`j["Time Series (Daily)"]`). -/
abbrev RawSeries := List (String × RawEntry)

/-- `round(float(rec[k]), 4)` — a required price field; missing key raises
`KeyError`, a non-numeric or null value raises in `float()`. -/
def reqField (rec : RawEntry) (k : String) : Except String ℚ :=
  match rec.lookup k with
  | none => .error ("KeyError: " ++ k)
  | some v => (pyFloat v).map round4

/-- `int(rec[k])` — the required volume field. -/
def reqVolume (rec : RawEntry) (k : String) : Except String ℤ :=
  match rec.lookup k with
  | none => .error ("KeyError: " ++ k)
  | some v => pyInt v

/-- `round(float(rec.get(k, d)), 4)` — the single-date variant's optional
field access (no null guard: a present null reaches `float()`). -/
def normField1 (rec : RawEntry) (k : String) (d : ℚ) : Except String ℚ :=
  match rec.lookup k with
  | none => .ok (round4 d)
  | some v => (pyFloat v).map round4

/-- `round(float(rec.get(k, d) or d), 4)` — the multi-date variant's optional
field access: a present falsy value (null, empty string) falls back to the
default before `float()` runs. -/
def normField2 (rec : RawEntry) (k : String) (d : ℚ) : Except String ℚ :=
  match rec.lookup k with
  | none => .ok (round4 d)
  | some v => if truthy v then (pyFloat v).map round4 else .ok (round4 d)

/-- A canonical daily bar, one row of `stocks.daily_prices`. -/
structure PriceRecord where
  symbol : String
  trade_date : String
  open_price : ℚ
  high : ℚ
  low : ℚ
  close : ℚ
  adjusted_close : ℚ
  volume : ℤ
  dividend_amount : ℚ
  split_coefficient : ℚ
deriving DecidableEq, Repr

/-- The conflict key of `INSERT_PRICE_SQL`: `(symbol, trade_date)`. -/
def sameKey (a b : PriceRecord) : Bool :=
  a.symbol == b.symbol && a.trade_date == b.trade_date

/-- Result of one `INSERT ... ON CONFLICT (symbol, trade_date) DO NOTHING`. -/
inductive UpsertResult where
  | inserted
  | already_existed
deriving DecidableEq, Repr

/-- `INSERT ... ON CONFLICT (symbol, trade_date) DO NOTHING`: insert if no
row with the same key exists, otherwise leave the table untouched. -/
def upsert (tbl : List PriceRecord) (r : PriceRecord) :
    UpsertResult × List PriceRecord :=
  if tbl.any (fun x => sameKey x r) then (.already_existed, tbl)
  else (.inserted, tbl ++ [r])

/-- Row construction of the single-date variant (fields evaluated in source
order; any failure is an uncaught exception at this point in that script). -/
def buildRow1 (symbol tdate : String) (rec : RawEntry) :
    Except String PriceRecord := do
  let o ← reqField rec "1. open"
  let h ← reqField rec "2. high"
  let l ← reqField rec "3. low"
  let c ← reqField rec "4. close"
  let ac ← reqField rec "5. adjusted close"
  let v ← reqVolume rec "6. volume"
  let dv ← normField1 rec "7. dividend amount" 0
  let sc ← normField1 rec "8. split coefficient" 1
  pure ⟨symbol, tdate, o, h, l, c, ac, v, dv, sc⟩

/-- Row construction of the multi-date variant (same fields, but the optional
fields use the `or`-guarded access, and the whole construction sits inside the
per-job try block). -/
def buildRow2 (symbol tdate : String) (rec : RawEntry) :
    Except String PriceRecord := do
  let o ← reqField rec "1. open"
  let h ← reqField rec "2. high"
  let l ← reqField rec "3. low"
  let c ← reqField rec "4. close"
  let ac ← reqField rec "5. adjusted close"
  let v ← reqVolume rec "6. volume"
  let dv ← normField2 rec "7. dividend amount" 0
  let sc ← normField2 rec "8. split coefficient" 1
  pure ⟨symbol, tdate, o, h, l, c, ac, v, dv, sc⟩

/-- One row of the yfinance frame after the column renaming of the fallback
recovery script (`open/high/low/close/adjusted_close/volume`). -/
structure YRow where
  yopen : ℚ
  yhigh : ℚ
  ylow : ℚ
  yclose : ℚ
  yadj : ℚ
  yvol : ℚ
deriving DecidableEq, Repr

/-- A yfinance frame indexed by ISO date, as the fallback script sees it. -/
abbrev YFrame := List (String × YRow)

/-- External effects of one run: the primary-provider fetch
(`fetch_symbol_data`), the fallback-provider fetch (`yf.download` after
reindex/renaming), and injected per-job insert failures (the exception a
data base `INSERT` may raise, keyed by `job_id`). -/
structure Env where
  fetch : String → Except String RawSeries
  fetchY : String → Except String YFrame
  insertErr : Nat → Option String

/-- Job table: association list `job_id → (status, error_message)`, the
relevant columns of `pipelines.stocks_daily_jobs`. -/
abbrev JobTable := List (Nat × Status × Option String)

/-- `mark_job`: `UPDATE ... SET status, error_message WHERE job_id = jid` —
updates every row with that id, inserts nothing. -/
def markJob (tbl : JobTable) (jid : Nat) (st : Status) (err : Option String) :
    JobTable :=
  tbl.map (fun e => if e.1 = jid then (jid, st, err) else e)

/-- The (status, error_message) row for a job id (first matching row). -/
def lookupRow : JobTable → Nat → Option (Status × Option String)
  | [], _ => none
  | e :: tl, i => if e.1 = i then some e.2 else lookupRow tl i

/-- Status of a job id in the table. -/
def lookupStatus (tbl : JobTable) (jid : Nat) : Option Status :=
  (lookupRow tbl jid).map Prod.fst

/-- The table has a row for this job id. -/
def tableHas (tbl : JobTable) (i : Nat) : Prop := (lookupRow tbl i).isSome

/-- The job's status in the table is terminal (SUCCESS or FAILED). -/
def terminalTbl (tbl : JobTable) (i : Nat) : Prop :=
  lookupStatus tbl i = some .SUCCESS ∨ lookupStatus tbl i = some .FAILED

/-- Committed state of one run: job table, price table, per-run fetch cache
(`series_cache`), and the log of provider invocations actually issued. -/
structure EngState where
  jobTable : JobTable
  priceTable : List PriceRecord
  cache : List (String × RawSeries)
  fetchLog : List String
deriving DecidableEq, Repr

/-- Initial state of a run over a loaded batch: all loaded jobs PENDING,
nothing fetched. The price table is passed in (it persists across runs). -/
def initState (jobs : List Job) (prices : List PriceRecord) : EngState :=
  { jobTable := jobs.map (fun j => (j.job_id, Status.PENDING, none))
    priceTable := prices
    cache := []
    fetchLog := [] }

/-- `mark_job(cur, jid, "FAILED", msg); commit`. -/
def failJob (st : EngState) (job : Job) (msg : String) : EngState :=
  { st with jobTable := markJob st.jobTable job.job_id .FAILED (some msg) }

/-- `mark_job(cur, jid, "SUCCESS"); commit`. -/
def succJob (st : EngState) (job : Job) : EngState :=
  { st with jobTable := markJob st.jobTable job.job_id .SUCCESS none }

/-- Record one provider invocation in the fetch log. -/
def logFetch (st : EngState) (s : String) : EngState :=
  { st with fetchLog := st.fetchLog ++ [s] }

/-- `series_cache[symbol] = series`. -/
def addCache (st : EngState) (s : String) (series : RawSeries) : EngState :=
  { st with cache := st.cache ++ [(s, series)] }

/-- `cur.execute(INSERT_PRICE_SQL, row)` against the price table. -/
def insertRow (st : EngState) (row : PriceRecord) : EngState :=
  { st with priceTable := (upsert st.priceTable row).2 }

/-- Single-date variant, per-job body once the series is at hand: missing
date → FAILED with the literal market-closed message; row construction is
OUTSIDE the insert try block in this script, so its failure is an uncaught
exception (`none` = the run aborts); insert failure → rollback + FAILED;
otherwise insert + SUCCESS, committed together. -/
def processJob1Body (env : Env) (tdate : String) (st : EngState) (job : Job)
    (symbol : String) (series : RawSeries) : Option EngState :=
  match series.lookup tdate with
  | none => some (failJob st job "No data for trade_date (market closed?)")
  | some rec =>
    match buildRow1 symbol tdate rec with
    | .error _ => none
    | .ok row =>
      match env.insertErr job.job_id with
      | some m => some (failJob st job ("Insert error: " ++ m))
      | none => some (succJob (insertRow st row) job)

/-- Single-date variant, one iteration of the main loop: consult the fetch
cache, fetch on a miss (fetch failure → job FAILED with an API-error
message), then run the per-job body. -/
def processJob1 (env : Env) (tdate : String) (st : EngState) (job : Job) :
    Option EngState :=
  let symbol := pyUpper job.symbol
  match st.cache.lookup symbol with
  | some series => processJob1Body env tdate st job symbol series
  | none =>
    match env.fetch symbol with
    | .error e =>
        some (failJob (logFetch st symbol) job ("API error: " ++ e))
    | .ok series =>
        processJob1Body env tdate (addCache (logFetch st symbol) symbol series)
          job symbol series

/-- Single-date variant, whole main loop; `none` = the run died with an
uncaught exception part-way through. -/
def runJobs1 (env : Env) (tdate : String) : EngState → List Job → Option EngState
  | st, [] => some st
  | st, j :: js =>
    match processJob1 env tdate st j with
    | none => none
    | some st' => runJobs1 env tdate st' js

/-- Keys of a `groupby` in first-occurrence order, skipping keys already
seen. -/
def dedupKeysAux (seen : List String) : List String → List String
  | [] => []
  | x :: xs =>
    if x ∈ seen then dedupKeysAux seen xs
    else x :: dedupKeysAux (x :: seen) xs

/-- Keys of a `groupby` in first-occurrence order (the job query orders by
symbol, so this is ascending symbol order). -/
def dedupKeys (l : List String) : List String := dedupKeysAux [] l

/-- Multi-date variant, per-(job, date) step inside a symbol group: the row
construction and the insert share one try block, so a malformed entry is
caught and marked FAILED with an insert-error message. -/
def processDate2 (env : Env) (symU : String) (series : RawSeries)
    (st : EngState) (job : Job) : EngState :=
  match series.lookup job.trade_date with
  | none => failJob st job "No data for trade_date (market closed?)"
  | some rec =>
    match buildRow2 symU job.trade_date rec with
    | .error e => failJob st job ("Insert error: " ++ e)
    | .ok row =>
      match env.insertErr job.job_id with
      | some m => failJob st job ("Insert error: " ++ m)
      | none => succJob (insertRow st row) job

/-- Multi-date variant, one symbol group: a single fetch for the group; on
fetch failure every job of the group is FAILED; on success each (job, date)
is processed in order. -/
def processGroup2 (env : Env) (st : EngState) (s : String) (group : List Job) :
    EngState :=
  let symU := pyUpper s
  match env.fetch symU with
  | .error e =>
      group.foldl (fun st2 j => failJob st2 j ("API error: " ++ e))
        (logFetch st symU)
  | .ok series =>
      group.foldl (processDate2 env symU series) (logFetch st symU)

/-- Multi-date variant, loop over the symbol groups in key order. -/
def runGroups2Aux (env : Env) (jobs : List Job) :
    List String → EngState → EngState
  | [], st => st
  | s :: ks, st =>
      runGroups2Aux env jobs ks
        (processGroup2 env st s (jobs.filter (fun j => j.symbol == s)))

/-- Multi-date variant, whole main loop (`jobs_by_symbol`). -/
def runGroups2 (env : Env) (jobs : List Job) (st : EngState) : EngState :=
  runGroups2Aux env jobs (dedupKeys (jobs.map (·.symbol))) st

/-- Fallback recovery variant, row construction: prices rounded to 4 places,
volume truncated to an integer, and dividend/split hardcoded to 0.0 / 1.0
(yfinance daily data carries neither). -/
def buildRow3 (symU dt : String) (y : YRow) : PriceRecord :=
  { symbol := symU
    trade_date := dt
    open_price := round4 y.yopen
    high := round4 y.yhigh
    low := round4 y.ylow
    close := round4 y.yclose
    adjusted_close := round4 y.yadj
    volume := pyTrunc y.yvol
    dividend_amount := 0
    split_coefficient := 1 }

/-- Fallback recovery variant, per-(job, date) step: `df.loc[dt]` raising
`KeyError` (date absent from the frame) → FAILED with the literal
market-closed message; insert failure → rollback + FAILED; otherwise insert
and SUCCESS. -/
def processDate3 (env : Env) (symU : String) (df : YFrame)
    (st : EngState) (job : Job) : EngState :=
  match df.lookup job.trade_date with
  | none => failJob st job "No data for trade_date (market closed?)"
  | some y =>
    match env.insertErr job.job_id with
    | some m => failJob st job ("Insert error: " ++ m)
    | none => succJob (insertRow st (buildRow3 symU job.trade_date y)) job

/-- Fallback recovery variant, one symbol group: one `yf.download` per
symbol; download failure or an empty frame fails the whole group. -/
def processGroup3 (env : Env) (st : EngState) (s : String) (group : List Job) :
    EngState :=
  let symU := pyUpper s
  match env.fetchY symU with
  | .error e =>
      group.foldl (fun st2 j => failJob st2 j ("yfinance error: " ++ e))
        (logFetch st symU)
  | .ok df =>
      if df.isEmpty then
        group.foldl (fun st2 j => failJob st2 j "No data returned from yfinance")
          (logFetch st symU)
      else
        group.foldl (processDate3 env symU df) (logFetch st symU)

/-- Fallback recovery variant, loop over the symbol groups. -/
def runGroups3Aux (env : Env) (jobs : List Job) :
    List String → EngState → EngState
  | [], st => st
  | s :: ks, st =>
      runGroups3Aux env jobs ks
        (processGroup3 env st s (jobs.filter (fun j => j.symbol == s)))

/-- Fallback recovery variant, whole main loop. -/
def runGroups3 (env : Env) (jobs : List Job) (st : EngState) : EngState :=
  runGroups3Aux env jobs (dedupKeys (jobs.map (·.symbol))) st

/-! ### Rate limiter (runs 1 and 2 share this gate verbatim)

`MAX_REQ_PER_MIN = 75`, `COOLDOWN_SECS = 60`. State is the pair
(`req_counter`, `minute_start`); `rlAcquire` is one pass through the gate
followed by a successful fetch (which increments the counter). It returns
the time at which the request is actually issued. -/

/-- Rate-limiter state: request counter and window-start timestamp. -/
structure RL where
  counter : Nat
  windowStart : ℚ
deriving DecidableEq, Repr

/-- One pass through the gate at wall-clock time `now`, followed by the
post-fetch counter increment: if the counter has reached the maximum and
less than 60 seconds have elapsed, sleep `cooldown − elapsed` (if positive),
reset the counter and window start, then issue; otherwise issue at once. -/
def rlAcquire (maxReq : Nat) (cooldown : ℚ) (rl : RL) (now : ℚ) : ℚ × RL :=
  if maxReq ≤ rl.counter ∧ now - rl.windowStart < 60 then
    let wake := now + max (cooldown - (now - rl.windowStart)) 0
    (wake, ⟨1, wake⟩)
  else
    (now, ⟨rl.counter + 1, rl.windowStart⟩)

/-- Issue times of a sequence of fetch requests: request `i` is attempted at
its arrival time or as soon as the previous one finished, whichever is
later. -/
def runRL (maxReq : Nat) (cooldown : ℚ) : RL → ℚ → List ℚ → List ℚ
  | _, _, [] => []
  | rl, clock, a :: as =>
    let now := max clock a
    let (t, rl') := rlAcquire maxReq cooldown rl now
    t :: runRL maxReq cooldown rl' t as

/-! ### Interrupt handling

A `KeyboardInterrupt` delivered while job `k` (0-based) is in flight, before
that job's commit: the handler rolls the open transaction back, so the
committed state is exactly the state after the first `k` jobs. The
single-date script catches the interrupt, rolls back, closes and falls off
the end of the file — process exit status 0. The multi-date and fallback
scripts re-raise `SystemExit(1)` — exit status 1. -/

/-- Single-date run interrupted during job `k`: committed state (if the
prefix itself completed) and the process exit status. -/
def run1Interrupted (env : Env) (tdate : String) (jobs : List Job)
    (prices : List PriceRecord) (k : Nat) : Option EngState × Nat :=
  (runJobs1 env tdate (initState jobs prices) (jobs.take k), 0)

/-- Multi-date run interrupted during symbol group `k`: committed state and
the process exit status. -/
def run2Interrupted (env : Env) (jobs : List Job)
    (prices : List PriceRecord) (k : Nat) : EngState × Nat :=
  (runGroups2Aux env jobs ((dedupKeys (jobs.map (·.symbol))).take k)
      (initState jobs prices), 1)

/-- Fallback recovery run interrupted during symbol group `k`: committed
state and the process exit status (its handler also re-raises
`SystemExit(1)`). -/
def run3Interrupted (env : Env) (jobs : List Job)
    (prices : List PriceRecord) (k : Nat) : EngState × Nat :=
  (runGroups3Aux env jobs ((dedupKeys (jobs.map (·.symbol))).take k)
      (initState jobs prices), 1)

/-! ### File-driven batched variant (`trial_process`)

`BATCH_SIZE = 200`, `MAX_RETRIES = 3`, backoff `time.sleep(2 * attempt)`
between failed attempts. `res a` is the outcome of download attempt `a`
(1-based) for one batch. -/

/-- Per-symbol one-day data of a batched yfinance download: symbol → (date →
bar); bar fields that can be NaN are `Option ℚ`. -/
structure YBar where
  ybopen : Option ℚ
  ybhigh : Option ℚ
  yblow : Option ℚ
  ybclose : Option ℚ
  ybadj : Option ℚ
  ybvol : Option ℚ
deriving DecidableEq, Repr

/-- Result frame of one successful batched download. -/
abbrev YFData := List (String × List (String × YBar))

/-- Outcome of the retry loop around `download_batch`. -/
inductive BatchOutcome where
  | success (data : YFData) (attemptsUsed : Nat) (sleeps : List Nat)
  | exhausted (lastErr : String) (sleeps : List Nat)
deriving DecidableEq, Repr

/-- The `while attempt <= MAX_RETRIES` loop: try, break on success; on
failure sleep `2 * attempt` seconds unless this was the last attempt, in
which case fall out with the error. `remaining` counts attempts left,
`a` is the current attempt number. -/
def attemptLoop (res : Nat → Except String YFData) :
    Nat → Nat → List Nat → BatchOutcome
  | 0, _, sleeps => .exhausted "" sleeps
  | r + 1, a, sleeps =>
    match res a with
    | .ok d => .success d a sleeps
    | .error e =>
      if r = 0 then .exhausted e sleeps
      else attemptLoop res r (a + 1) (sleeps ++ [2 * a])

/-- Download one batch with up to `maxRetries` attempts. -/
def runBatch (res : Nat → Except String YFData) (maxRetries : Nat) :
    BatchOutcome :=
  attemptLoop res maxRetries 1 []

/-- A log line: symbol, status, message. -/
structure LogEntry where
  sym : String
  status : String
  msg : String
deriving DecidableEq, Repr

/-- Per-symbol processing of a successfully downloaded batch (the script's
validation: symbol present, date present, close and volume non-NaN). -/
def processSym (data : YFData) (tradeDate : String) (sym : String) : LogEntry :=
  match data.lookup sym with
  | none => ⟨sym, "FAILED", "symbol not in downloaded data"⟩
  | some frame =>
    match frame.lookup tradeDate with
    | none => ⟨sym, "FAILED", "trade_date not in data"⟩
    | some bar =>
      if bar.ybclose.isNone || bar.ybvol.isNone then
        ⟨sym, "FAILED", "missing price or volume"⟩
      else ⟨sym, "SUCCESS", ""⟩

/-- The outer loop over batches: `res i a` is attempt `a` of batch `i`.
On retry exhaustion every symbol of the batch is logged FAILED with a
batch-error message and the loop continues with the next batch. -/
def processBatchesAux (res : Nat → Nat → Except String YFData)
    (maxRetries : Nat) (tradeDate : String) :
    Nat → List (List String) → List LogEntry
  | _, [] => []
  | i, b :: bs =>
    match runBatch (res i) maxRetries with
    | .exhausted e _ =>
        b.map (fun s => ⟨s, "FAILED", "batch-error: " ++ e⟩) ++
          processBatchesAux res maxRetries tradeDate (i + 1) bs
    | .success data _ _ =>
        b.map (processSym data tradeDate) ++
          processBatchesAux res maxRetries tradeDate (i + 1) bs

/-- `chunk(lst, size)` with chunk size `szPred + 1`. -/
def chunk (szPred : Nat) : List String → List (List String)
  | [] => []
  | x :: xs => (x :: xs).take (szPred + 1) :: chunk szPred (xs.drop szPred)
termination_by l => l.length
decreasing_by
  simp only [List.length_cons, List.length_drop]
  omega

/-- The whole file-driven run over the ticker list (batch size 200,
MAX_RETRIES = 3). -/
def runBatches (res : Nat → Nat → Except String YFData) (tradeDate : String)
    (symbols : List String) : List LogEntry :=
  processBatchesAux res 3 tradeDate 0 (chunk 199 symbols)

/-! ### Concrete inputs used by witnesses and counterexamples -/

/-- A well-formed provider entry. -/
def recGood : RawEntry :=
  [("1. open", .numStr 10), ("2. high", .numStr 11), ("3. low", .numStr 9),
   ("4. close", .numStr (mkRat 95 10)), ("5. adjusted close", .numStr (mkRat 95 10)),
   ("6. volume", .numStr 1000), ("7. dividend amount", .numStr (mkRat 1 4)),
   ("8. split coefficient", .numStr 1)]

/-- A malformed provider entry: the required field `1. open` is missing. -/
def recBad : RawEntry :=
  [("2. high", .numStr 11), ("3. low", .numStr 9),
   ("4. close", .numStr (mkRat 95 10)), ("5. adjusted close", .numStr (mkRat 95 10)),
   ("6. volume", .numStr 1000)]

/-- A provider entry whose `7. dividend amount` is JSON null. -/
def recNull : RawEntry :=
  [("1. open", .numStr 10), ("2. high", .numStr 11), ("3. low", .numStr 9),
   ("4. close", .numStr (mkRat 95 10)), ("5. adjusted close", .numStr (mkRat 95 10)),
   ("6. volume", .numStr 1000), ("7. dividend amount", .null)]

/-- A two-day series of well-formed entries. -/
def seriesGood : RawSeries :=
  [("2025-06-23", recGood), ("2025-06-24", recGood)]

/-- A one-day series containing only the malformed entry. -/
def seriesBadOpen : RawSeries := [("2025-06-23", recBad)]

/-- One row of yfinance data. -/
def yrowW : YRow := ⟨10, 11, 9, mkRat 95 10, mkRat 95 10, 500⟩

/-- A one-day yfinance frame. -/
def yframeW : YFrame := [("2025-06-23", yrowW)]

/-- Environment: AAPL resolves, IBM resolves on the fallback provider,
everything else fails; no injected insert errors. -/
def envW : Env :=
  { fetch := fun s => if s = "AAPL" then .ok seriesGood else .error "HTTP 500"
    fetchY := fun s => if s = "IBM" then .ok yframeW else .error "no data"
    insertErr := fun _ => none }

/-- Environment whose only symbol returns the malformed entry. -/
def envBadOpen : Env :=
  { fetch := fun _ => .ok seriesBadOpen
    fetchY := fun _ => .error "no data"
    insertErr := fun _ => none }

/-- A three-job batch: two AAPL dates and one MSFT date. -/
def jobsW : List Job :=
  [⟨1, "AAPL", "2025-06-23"⟩, ⟨2, "AAPL", "2025-06-24"⟩, ⟨3, "MSFT", "2025-06-23"⟩]

/-- A single job. -/
def jobB : Job := ⟨1, "AAPL", "2025-06-23"⟩

/-- A single-job batch for the fallback run. -/
def jobs3W : List Job := [⟨9, "IBM", "2025-06-23"⟩]

/-- An engine state whose cache already holds AAPL. -/
def stCached : EngState :=
  { jobTable := [(1, Status.PENDING, none)]
    priceTable := []
    cache := [("AAPL", seriesGood)]
    fetchLog := [] }

/-- An engine state whose cache holds the malformed AAPL series. -/
def stCachedBad : EngState :=
  { jobTable := [(1, Status.PENDING, none)]
    priceTable := []
    cache := [("AAPL", seriesBadOpen)]
    fetchLog := [] }

/-- A canonical price record. -/
def prA : PriceRecord :=
  ⟨"AAPL", "2025-06-23", 10, 11, 9, mkRat 95 10, mkRat 95 10, 1000, 0, 1⟩

/-- A different record with the same `(symbol, trade_date)` key. -/
def prA2 : PriceRecord :=
  ⟨"AAPL", "2025-06-23", 20, 22, 18, 19, 19, 2000, mkRat 1 2, 1⟩

/-- A download that fails on every attempt. -/
def resFailW : Nat → Except String YFData := fun _ => .error "ConnectionError"

/-- A download that succeeds immediately (with an empty frame). -/
def resOkW : Nat → Except String YFData := fun _ => .ok []

/-- A per-batch download oracle that always fails. -/
def res2FailW : Nat → Nat → Except String YFData := fun _ _ => .error "ConnectionError"

/-! ## Lemmas about the job table -/

theorem lookupRow_markJob_ne (tbl : JobTable) (jid i : Nat) (s : Status)
    (e : Option String) (h : i ≠ jid) :
    lookupRow (markJob tbl jid s e) i = lookupRow tbl i := by
  induction tbl with
  | nil => rfl
  | cons hd tl ih =>
    by_cases hk : hd.1 = jid
    · simp only [markJob, List.map_cons, if_pos hk, lookupRow] at *
      rw [if_neg (fun hcon : jid = i => h hcon.symm),
        if_neg (fun hcon : hd.1 = i => h (hcon.symm.trans hk))]
      exact ih
    · simp only [markJob, List.map_cons, if_neg hk, lookupRow] at *
      by_cases hik : hd.1 = i
      · rw [if_pos hik, if_pos hik]
      · rw [if_neg hik, if_neg hik]
        exact ih

theorem lookupRow_markJob_self (tbl : JobTable) (jid : Nat) (s : Status)
    (e : Option String) (h : tableHas tbl jid) :
    lookupRow (markJob tbl jid s e) jid = some (s, e) := by
  induction tbl with
  | nil => simp [tableHas, lookupRow] at h
  | cons hd tl ih =>
    by_cases hk : hd.1 = jid
    · simp [markJob, lookupRow, if_pos hk]
    · simp only [markJob, List.map_cons, if_neg hk, lookupRow, if_neg hk] at *
      simp only [tableHas, lookupRow, if_neg hk] at h
      exact ih h

theorem markJob_of_not_has (tbl : JobTable) (jid : Nat) (s : Status)
    (e : Option String) (h : ¬ tableHas tbl jid) :
    markJob tbl jid s e = tbl := by
  induction tbl with
  | nil => rfl
  | cons hd tl ih =>
    simp only [tableHas, lookupRow] at h
    by_cases hk : hd.1 = jid
    · rw [if_pos hk] at h
      simp at h
    · rw [if_neg hk] at h
      simp only [markJob, List.map_cons, if_neg hk]
      have := ih (by simpa [tableHas] using h)
      simpa [markJob] using this

theorem tableHas_markJob (tbl : JobTable) (jid : Nat) (s : Status)
    (e : Option String) (i : Nat) :
    tableHas (markJob tbl jid s e) i ↔ tableHas tbl i := by
  by_cases hi : i = jid
  · subst hi
    by_cases h : tableHas tbl i
    · rw [tableHas, lookupRow_markJob_self tbl i s e h]
      simpa using h
    · rw [markJob_of_not_has tbl i s e h]
  · rw [tableHas, lookupRow_markJob_ne tbl jid i s e hi, tableHas]

theorem terminalTbl_markJob (tbl : JobTable) (jid : Nat) (s : Status)
    (hs : s = .SUCCESS ∨ s = .FAILED) (e : Option String) (i : Nat)
    (h : terminalTbl tbl i ∨ (i = jid ∧ tableHas tbl jid)) :
    terminalTbl (markJob tbl jid s e) i := by
  by_cases hi : i = jid
  · subst hi
    by_cases hh : tableHas tbl i
    · rw [terminalTbl, lookupStatus, lookupRow_markJob_self tbl i s e hh]
      rcases hs with hs | hs <;> subst hs <;> simp
    · rcases h with h | h
      · rw [terminalTbl, lookupStatus, markJob_of_not_has tbl i s e hh]
        exact h
      · exact absurd h.2 hh
  · rcases h with h | h
    · rwa [terminalTbl, lookupStatus, lookupRow_markJob_ne tbl jid i s e hi]
    · exact absurd h.1 hi

theorem tableHas_init (jobs : List Job) (prices : List PriceRecord) (j : Job)
    (hj : j ∈ jobs) : tableHas (initState jobs prices).jobTable j.job_id := by
  induction jobs with
  | nil => cases hj
  | cons hd tl ih =>
    rcases List.mem_cons.mp hj with hj | hj
    · subst hj
      simp [initState, tableHas, lookupRow]
    · simp only [initState, List.map_cons, tableHas, lookupRow] at *
      by_cases hik : hd.job_id = j.job_id
      · rw [if_pos hik]
        simp
      · rw [if_neg hik]
        exact ih hj

theorem lookupRow_init_pending (jobs : List Job) (prices : List PriceRecord)
    (i : Nat) (h : tableHas (initState jobs prices).jobTable i) :
    lookupRow (initState jobs prices).jobTable i = some (Status.PENDING, none) := by
  induction jobs with
  | nil => simp [initState, tableHas, lookupRow] at h
  | cons hd tl ih =>
    simp only [initState, List.map_cons, lookupRow, tableHas] at *
    by_cases hik : hd.job_id = i
    · rw [if_pos hik]
    · rw [if_neg hik] at h ⊢
      exact ih h

/-! ## Per-job shape lemmas: every completed job step writes exactly one
terminal status for its own job id and touches no other row. -/

theorem processJob1_jobTable (env : Env) (tdate : String) (st : EngState)
    (job : Job) (st' : EngState) (h : processJob1 env tdate st job = some st') :
    ∃ stat msg, (stat = Status.SUCCESS ∨ stat = Status.FAILED) ∧
      st'.jobTable = markJob st.jobTable job.job_id stat msg := by
  simp only [processJob1, processJob1Body] at h
  split at h
  case h_1 series heq =>
    split at h
    case h_1 => exact ⟨.FAILED, _, Or.inr rfl, by cases h; rfl⟩
    case h_2 rec heq2 =>
      split at h
      case h_1 => cases h
      case h_2 row heq3 =>
        split at h
        case h_1 => exact ⟨.FAILED, _, Or.inr rfl, by cases h; rfl⟩
        case h_2 => exact ⟨.SUCCESS, none, Or.inl rfl, by cases h; rfl⟩
  case h_2 heq =>
    split at h
    case h_1 => exact ⟨.FAILED, _, Or.inr rfl, by cases h; rfl⟩
    case h_2 series heq2 =>
      split at h
      case h_1 => exact ⟨.FAILED, _, Or.inr rfl, by cases h; rfl⟩
      case h_2 rec heq3 =>
        split at h
        case h_1 => cases h
        case h_2 row heq4 =>
          split at h
          case h_1 => exact ⟨.FAILED, _, Or.inr rfl, by cases h; rfl⟩
          case h_2 => exact ⟨.SUCCESS, none, Or.inl rfl, by cases h; rfl⟩

theorem runJobs1_props (env : Env) (tdate : String) :
    ∀ (jobs : List Job) (st st' : EngState),
      runJobs1 env tdate st jobs = some st' →
      (∀ i, tableHas st.jobTable i → tableHas st'.jobTable i) ∧
      (∀ i, terminalTbl st.jobTable i → terminalTbl st'.jobTable i) ∧
      (∀ j ∈ jobs, tableHas st.jobTable j.job_id → terminalTbl st'.jobTable j.job_id) := by
  intro jobs
  induction jobs with
  | nil =>
    intro st st' h
    cases h
    exact ⟨fun _ h => h, fun _ h => h, fun j hj => absurd hj (List.not_mem_nil j)⟩
  | cons hd tl ih =>
    intro st st' h
    simp only [runJobs1] at h
    split at h
    case h_1 => cases h
    case h_2 stMid heq =>
      obtain ⟨hHas, hTerm, hAll⟩ := ih stMid st' h
      obtain ⟨stat, msg, hstat, htbl⟩ := processJob1_jobTable env tdate st hd stMid heq
      refine ⟨?_, ?_, ?_⟩
      · intro i hi
        exact hHas i (by rw [htbl]; exact (tableHas_markJob _ _ _ _ _).mpr hi)
      · intro i hi
        exact hTerm i (by rw [htbl]; exact terminalTbl_markJob _ _ _ hstat _ _ (Or.inl hi))
      · intro j hj hhas
        rcases List.mem_cons.mp hj with hj | hj
        · subst hj
          exact hTerm j.job_id
            (by rw [htbl]; exact terminalTbl_markJob _ _ _ hstat _ _ (Or.inr ⟨rfl, hhas⟩))
        · exact hAll j hj (by rw [htbl]; exact (tableHas_markJob _ _ _ _ _).mpr hhas)

theorem runJobs1_untouched (env : Env) (tdate : String) :
    ∀ (jobs : List Job) (st st' : EngState) (i : Nat),
      runJobs1 env tdate st jobs = some st' →
      (∀ j ∈ jobs, j.job_id ≠ i) →
      lookupRow st'.jobTable i = lookupRow st.jobTable i := by
  intro jobs
  induction jobs with
  | nil =>
    intro st st' i h _
    cases h
    rfl
  | cons hd tl ih =>
    intro st st' i h hne
    simp only [runJobs1] at h
    split at h
    case h_1 => cases h
    case h_2 stMid heq =>
      obtain ⟨stat, msg, _, htbl⟩ := processJob1_jobTable env tdate st hd stMid heq
      rw [ih stMid st' i h (fun j hj => hne j (List.mem_cons_of_mem hd hj)), htbl,
        lookupRow_markJob_ne _ _ _ _ _ (fun hcon => hne hd (List.mem_cons_self hd tl) hcon.symm)]

theorem processDate2_jobTable (env : Env) (symU : String) (series : RawSeries)
    (st : EngState) (job : Job) :
    ∃ stat msg, (stat = Status.SUCCESS ∨ stat = Status.FAILED) ∧
      (processDate2 env symU series st job).jobTable =
        markJob st.jobTable job.job_id stat msg := by
  simp only [processDate2]
  split
  case h_1 => exact ⟨.FAILED, _, Or.inr rfl, rfl⟩
  case h_2 rec heq =>
    split
    case h_1 => exact ⟨.FAILED, _, Or.inr rfl, rfl⟩
    case h_2 row heq2 =>
      split
      case h_1 => exact ⟨.FAILED, _, Or.inr rfl, rfl⟩
      case h_2 => exact ⟨.SUCCESS, none, Or.inl rfl, rfl⟩

theorem processDate3_jobTable (env : Env) (symU : String) (df : YFrame)
    (st : EngState) (job : Job) :
    ∃ stat msg, (stat = Status.SUCCESS ∨ stat = Status.FAILED) ∧
      (processDate3 env symU df st job).jobTable =
        markJob st.jobTable job.job_id stat msg := by
  simp only [processDate3]
  split
  case h_1 => exact ⟨.FAILED, _, Or.inr rfl, rfl⟩
  case h_2 y heq =>
    split
    case h_1 => exact ⟨.FAILED, _, Or.inr rfl, rfl⟩
    case h_2 => exact ⟨.SUCCESS, none, Or.inl rfl, rfl⟩

/-- A step function that marks exactly its own job's row with a terminal
status (shared shape of the per-job steps of all three engine variants). -/
def MarksOwnJob (f : EngState → Job → EngState) : Prop :=
  ∀ st j, ∃ stat msg, (stat = Status.SUCCESS ∨ stat = Status.FAILED) ∧
    (f st j).jobTable = markJob st.jobTable j.job_id stat msg

theorem foldl_marks (f : EngState → Job → EngState) (Hf : MarksOwnJob f) :
    ∀ (group : List Job) (st : EngState),
      (∀ i, tableHas st.jobTable i → tableHas ((group.foldl f st).jobTable) i) ∧
      (∀ i, terminalTbl st.jobTable i → terminalTbl ((group.foldl f st).jobTable) i) ∧
      (∀ j ∈ group, tableHas st.jobTable j.job_id →
        terminalTbl ((group.foldl f st).jobTable) j.job_id) := by
  intro group
  induction group with
  | nil =>
    intro st
    exact ⟨fun _ h => h, fun _ h => h, fun j hj => absurd hj (List.not_mem_nil j)⟩
  | cons hd tl ih =>
    intro st
    obtain ⟨stat, msg, hstat, htbl⟩ := Hf st hd
    obtain ⟨hHas, hTerm, hAll⟩ := ih (f st hd)
    rw [List.foldl_cons]
    refine ⟨?_, ?_, ?_⟩
    · intro i hi
      exact hHas i (by rw [htbl]; exact (tableHas_markJob _ _ _ _ _).mpr hi)
    · intro i hi
      exact hTerm i (by rw [htbl]; exact terminalTbl_markJob _ _ _ hstat _ _ (Or.inl hi))
    · intro j hj hhas
      rcases List.mem_cons.mp hj with hj | hj
      · subst hj
        exact hTerm j.job_id
          (by rw [htbl]; exact terminalTbl_markJob _ _ _ hstat _ _ (Or.inr ⟨rfl, hhas⟩))
      · exact hAll j hj (by rw [htbl]; exact (tableHas_markJob _ _ _ _ _).mpr hhas)

theorem foldl_marks_untouched (f : EngState → Job → EngState) (Hf : MarksOwnJob f) :
    ∀ (group : List Job) (st : EngState) (i : Nat),
      (∀ j ∈ group, j.job_id ≠ i) →
      lookupRow ((group.foldl f st).jobTable) i = lookupRow st.jobTable i := by
  intro group
  induction group with
  | nil => intro st i _; rfl
  | cons hd tl ih =>
    intro st i hne
    obtain ⟨stat, msg, _, htbl⟩ := Hf st hd
    rw [List.foldl_cons, ih (f st hd) i (fun j hj => hne j (List.mem_cons_of_mem hd hj)),
      htbl, lookupRow_markJob_ne _ _ _ _ _
        (fun hcon => hne hd (List.mem_cons_self hd tl) hcon.symm)]

theorem marksOwnJob_failAll (msg : String) :
    MarksOwnJob (fun st2 j => failJob st2 j msg) :=
  fun _ _ => ⟨.FAILED, some msg, Or.inr rfl, rfl⟩

theorem marksOwnJob_processDate2 (env : Env) (symU : String) (series : RawSeries) :
    MarksOwnJob (processDate2 env symU series) :=
  fun st j => processDate2_jobTable env symU series st j

theorem marksOwnJob_processDate3 (env : Env) (symU : String) (df : YFrame) :
    MarksOwnJob (processDate3 env symU df) :=
  fun st j => processDate3_jobTable env symU df st j

theorem processGroup2_props (env : Env) (st : EngState) (s : String)
    (group : List Job) :
    (∀ i, tableHas st.jobTable i →
      tableHas ((processGroup2 env st s group).jobTable) i) ∧
    (∀ i, terminalTbl st.jobTable i →
      terminalTbl ((processGroup2 env st s group).jobTable) i) ∧
    (∀ j ∈ group, tableHas st.jobTable j.job_id →
      terminalTbl ((processGroup2 env st s group).jobTable) j.job_id) := by
  have hlog : (logFetch st (pyUpper s)).jobTable = st.jobTable := rfl
  simp only [processGroup2]
  split
  case h_1 e heq =>
    have := foldl_marks _ (marksOwnJob_failAll ("API error: " ++ e)) group
      (logFetch st (pyUpper s))
    rw [hlog] at this
    exact this
  case h_2 series heq =>
    have := foldl_marks _ (marksOwnJob_processDate2 env (pyUpper s) series) group
      (logFetch st (pyUpper s))
    rw [hlog] at this
    exact this

theorem processGroup2_untouched (env : Env) (st : EngState) (s : String)
    (group : List Job) (i : Nat) (hne : ∀ j ∈ group, j.job_id ≠ i) :
    lookupRow ((processGroup2 env st s group).jobTable) i =
      lookupRow st.jobTable i := by
  have hlog : (logFetch st (pyUpper s)).jobTable = st.jobTable := rfl
  simp only [processGroup2]
  split
  case h_1 e heq =>
    rw [foldl_marks_untouched _ (marksOwnJob_failAll ("API error: " ++ e)) group _ i hne, hlog]
  case h_2 series heq =>
    rw [foldl_marks_untouched _ (marksOwnJob_processDate2 env (pyUpper s) series) group _ i hne, hlog]

theorem runGroups2Aux_props (env : Env) (jobs : List Job) :
    ∀ (ks : List String) (st : EngState),
      (∀ i, tableHas st.jobTable i →
        tableHas ((runGroups2Aux env jobs ks st).jobTable) i) ∧
      (∀ i, terminalTbl st.jobTable i →
        terminalTbl ((runGroups2Aux env jobs ks st).jobTable) i) ∧
      (∀ s ∈ ks, ∀ j ∈ jobs.filter (fun j => j.symbol == s),
        tableHas st.jobTable j.job_id →
        terminalTbl ((runGroups2Aux env jobs ks st).jobTable) j.job_id) := by
  intro ks
  induction ks with
  | nil =>
    intro st
    exact ⟨fun _ h => h, fun _ h => h, fun s hs => absurd hs (List.not_mem_nil s)⟩
  | cons s0 ks ih =>
    intro st
    obtain ⟨gHas, gTerm, gAll⟩ :=
      processGroup2_props env st s0 (jobs.filter (fun j => j.symbol == s0))
    obtain ⟨hHas, hTerm, hAll⟩ :=
      ih (processGroup2 env st s0 (jobs.filter (fun j => j.symbol == s0)))
    simp only [runGroups2Aux]
    refine ⟨fun i hi => hHas i (gHas i hi), fun i hi => hTerm i (gTerm i hi), ?_⟩
    intro s hs j hj hhas
    rcases List.mem_cons.mp hs with hs | hs
    · subst hs
      exact hTerm j.job_id (gAll j hj hhas)
    · exact hAll s hs j hj (gHas j.job_id hhas)

theorem runGroups2Aux_untouched (env : Env) (jobs : List Job) :
    ∀ (ks : List String) (st : EngState) (i : Nat),
      (∀ s ∈ ks, ∀ j ∈ jobs.filter (fun j => j.symbol == s), j.job_id ≠ i) →
      lookupRow ((runGroups2Aux env jobs ks st).jobTable) i =
        lookupRow st.jobTable i := by
  intro ks
  induction ks with
  | nil => intro st i _; rfl
  | cons s0 ks ih =>
    intro st i hne
    simp only [runGroups2Aux]
    rw [ih _ i (fun s hs => hne s (List.mem_cons_of_mem s0 hs)),
      processGroup2_untouched env st s0 _ i (hne s0 (List.mem_cons_self s0 ks))]

/-! ## Group keys -/

theorem mem_dedupKeysAux : ∀ (l : List String) (seen : List String) (a : String),
    a ∈ dedupKeysAux seen l ↔ a ∈ l ∧ a ∉ seen := by
  intro l
  induction l with
  | nil => intro seen a; simp [dedupKeysAux]
  | cons x xs ih =>
    intro seen a
    simp only [dedupKeysAux]
    by_cases hx : x ∈ seen
    · rw [if_pos hx, ih]
      constructor
      · rintro ⟨h1, h2⟩
        exact ⟨List.mem_cons_of_mem x h1, h2⟩
      · rintro ⟨h1, h2⟩
        rcases List.mem_cons.mp h1 with h1 | h1
        · exact absurd (h1 ▸ hx) h2
        · exact ⟨h1, h2⟩
    · rw [if_neg hx]
      constructor
      · intro h
        rcases List.mem_cons.mp h with h | h
        · exact ⟨h ▸ List.mem_cons_self x xs, h ▸ hx⟩
        · obtain ⟨h1, h2⟩ := (ih (x :: seen) a).mp h
          exact ⟨List.mem_cons_of_mem x h1,
            fun hcon => h2 (List.mem_cons_of_mem x hcon)⟩
      · rintro ⟨h1, h2⟩
        rcases List.mem_cons.mp h1 with h1 | h1
        · exact h1 ▸ List.mem_cons_self x _
        · by_cases hax : a = x
          · exact hax ▸ List.mem_cons_self x _
          · exact List.mem_cons_of_mem x ((ih (x :: seen) a).mpr
              ⟨h1, fun hcon => by
                rcases List.mem_cons.mp hcon with hc | hc
                · exact hax hc
                · exact h2 hc⟩)

theorem mem_dedupKeys (l : List String) (a : String) : a ∈ dedupKeys l ↔ a ∈ l := by
  rw [dedupKeys, mem_dedupKeysAux]
  simp

theorem count_dedupKeysAux : ∀ (l : List String) (seen : List String) (a : String),
    a ∈ l → a ∉ seen → (dedupKeysAux seen l).count a = 1 := by
  intro l
  induction l with
  | nil => intro seen a ha _; cases ha
  | cons x xs ih =>
    intro seen a ha hseen
    simp only [dedupKeysAux]
    by_cases hx : x ∈ seen
    · rw [if_pos hx]
      have hax : a ≠ x := fun hcon => hseen (hcon ▸ hx)
      have hxs : a ∈ xs := by
        rcases List.mem_cons.mp ha with h | h
        · exact absurd h hax
        · exact h
      exact ih seen a hxs hseen
    · rw [if_neg hx]
      by_cases hax : a = x
      · subst hax
        rw [List.count_cons_self]
        have hnot : a ∉ dedupKeysAux (a :: seen) xs := by
          rw [mem_dedupKeysAux]
          rintro ⟨-, h2⟩
          exact h2 (List.mem_cons_self a seen)
        rw [List.count_eq_zero.mpr hnot]
      · rw [List.count_cons_of_ne (by simpa using hax)]
        have hxs : a ∈ xs := by
          rcases List.mem_cons.mp ha with h | h
          · exact absurd h hax
          · exact h
        exact ih (x :: seen) a hxs (fun hcon => by
          rcases List.mem_cons.mp hcon with hc | hc
          · exact hax hc
          · exact hseen hc)

theorem count_dedupKeys (l : List String) (a : String) (ha : a ∈ l) :
    (dedupKeys l).count a = 1 :=
  count_dedupKeysAux l [] a ha (List.not_mem_nil a)

/-! ## Fetch-log lemmas (one provider invocation per symbol group) -/

theorem processDate2_fetchLog (env : Env) (symU : String) (series : RawSeries)
    (st : EngState) (job : Job) :
    (processDate2 env symU series st job).fetchLog = st.fetchLog := by
  simp only [processDate2]
  split
  case h_1 => rfl
  case h_2 rec heq =>
    split
    case h_1 => rfl
    case h_2 row heq2 =>
      split
      case h_1 => rfl
      case h_2 => rfl

theorem foldl_fetchLog (f : EngState → Job → EngState)
    (Hf : ∀ st j, (f st j).fetchLog = st.fetchLog) :
    ∀ (group : List Job) (st : EngState),
      (group.foldl f st).fetchLog = st.fetchLog := by
  intro group
  induction group with
  | nil => intro st; rfl
  | cons hd tl ih => intro st; rw [List.foldl_cons, ih, Hf]

theorem processGroup2_fetchLog (env : Env) (st : EngState) (s : String)
    (group : List Job) :
    (processGroup2 env st s group).fetchLog = st.fetchLog ++ [pyUpper s] := by
  simp only [processGroup2]
  split
  case h_1 e heq =>
    rw [foldl_fetchLog (fun st2 j => failJob st2 j ("API error: " ++ e))
      (fun _ _ => rfl)]
    rfl
  case h_2 series heq =>
    rw [foldl_fetchLog (processDate2 env (pyUpper s) series)
      (processDate2_fetchLog env (pyUpper s) series)]
    rfl

theorem runGroups2Aux_fetchLog (env : Env) (jobs : List Job) :
    ∀ (ks : List String) (st : EngState),
      (runGroups2Aux env jobs ks st).fetchLog =
        st.fetchLog ++ ks.map pyUpper := by
  intro ks
  induction ks with
  | nil => intro st; simp [runGroups2Aux]
  | cons s0 ks ih =>
    intro st
    simp only [runGroups2Aux, List.map_cons]
    rw [ih, processGroup2_fetchLog]
    simp

theorem processJob1Body_fetchLog (env : Env) (tdate : String) (st : EngState)
    (job : Job) (symbol : String) (series : RawSeries) (st' : EngState)
    (h : processJob1Body env tdate st job symbol series = some st') :
    st'.fetchLog = st.fetchLog := by
  simp only [processJob1Body] at h
  split at h
  case h_1 => cases h; rfl
  case h_2 rec heq =>
    split at h
    case h_1 => cases h
    case h_2 row heq2 =>
      split at h
      case h_1 => cases h; rfl
      case h_2 => cases h; rfl

theorem processJob1_cached_no_fetch (env : Env) (tdate : String) (st : EngState)
    (job : Job) (series : RawSeries) (st' : EngState)
    (hcache : st.cache.lookup (pyUpper job.symbol) = some series)
    (h : processJob1 env tdate st job = some st') :
    st'.fetchLog = st.fetchLog := by
  simp only [processJob1, hcache] at h
  exact processJob1Body_fetchLog env tdate st job (pyUpper job.symbol) series st' h

/-! ## Price-table contents (fallback recovery run) -/

theorem mem_upsert (tbl : List PriceRecord) (row r : PriceRecord)
    (h : r ∈ (upsert tbl row).2) : r ∈ tbl ∨ r = row := by
  simp only [upsert] at h
  split at h
  · exact Or.inl h
  · rcases List.mem_append.mp h with h | h
    · exact Or.inl h
    · exact Or.inr (List.mem_singleton.mp h)

/-- A step function whose price-table additions all satisfy `P`. -/
def AddsOnly (P : PriceRecord → Prop) (f : EngState → Job → EngState) : Prop :=
  ∀ st j r, r ∈ (f st j).priceTable → r ∈ st.priceTable ∨ P r

theorem foldl_addsOnly (P : PriceRecord → Prop) (f : EngState → Job → EngState)
    (Hf : AddsOnly P f) :
    ∀ (group : List Job) (st : EngState) (r : PriceRecord),
      r ∈ (group.foldl f st).priceTable → r ∈ st.priceTable ∨ P r := by
  intro group
  induction group with
  | nil => intro st r h; exact Or.inl h
  | cons hd tl ih =>
    intro st r h
    rw [List.foldl_cons] at h
    rcases ih (f st hd) r h with h | h
    · exact Hf st hd r h
    · exact Or.inr h

theorem addsOnly_processDate3 (env : Env) (symU : String) (df : YFrame) :
    AddsOnly (fun r => r.dividend_amount = 0 ∧ r.split_coefficient = 1)
      (processDate3 env symU df) := by
  intro st j r h
  simp only [processDate3] at h
  split at h
  case h_1 => exact Or.inl h
  case h_2 y heq =>
    split at h
    case h_1 => exact Or.inl h
    case h_2 =>
      rcases mem_upsert st.priceTable _ r h with h | h
      · exact Or.inl h
      · exact Or.inr (by rw [h]; exact ⟨rfl, rfl⟩)

theorem processGroup3_prices (env : Env) (st : EngState) (s : String)
    (group : List Job) (r : PriceRecord)
    (h : r ∈ (processGroup3 env st s group).priceTable) :
    r ∈ st.priceTable ∨ (r.dividend_amount = 0 ∧ r.split_coefficient = 1) := by
  simp only [processGroup3] at h
  split at h
  case h_1 e heq =>
    rcases foldl_addsOnly (fun r => r.dividend_amount = 0 ∧ r.split_coefficient = 1)
      (fun st2 j => failJob st2 j ("yfinance error: " ++ e))
      (fun _ _ _ hr => Or.inl hr) group _ r h with h | h
    · exact Or.inl h
    · exact Or.inr h
  case h_2 df heq =>
    split at h
    · rcases foldl_addsOnly (fun r => r.dividend_amount = 0 ∧ r.split_coefficient = 1)
        (fun st2 j => failJob st2 j "No data returned from yfinance")
        (fun _ _ _ hr => Or.inl hr) group _ r h with h | h
      · exact Or.inl h
      · exact Or.inr h
    · rcases foldl_addsOnly (fun r => r.dividend_amount = 0 ∧ r.split_coefficient = 1)
        (processDate3 env (pyUpper s) df)
        (addsOnly_processDate3 env (pyUpper s) df) group _ r h with h | h
      · exact Or.inl h
      · exact Or.inr h

theorem runGroups3Aux_prices (env : Env) (jobs : List Job) :
    ∀ (ks : List String) (st : EngState) (r : PriceRecord),
      r ∈ (runGroups3Aux env jobs ks st).priceTable →
      r ∈ st.priceTable ∨ (r.dividend_amount = 0 ∧ r.split_coefficient = 1) := by
  intro ks
  induction ks with
  | nil => intro st r h; exact Or.inl h
  | cons s0 ks ih =>
    intro st r h
    simp only [runGroups3Aux] at h
    rcases ih _ r h with h | h
    · exact processGroup3_prices env st s0 _ r h
    · exact Or.inr h

theorem processGroup3_untouched (env : Env) (st : EngState) (s : String)
    (group : List Job) (i : Nat) (hne : ∀ j ∈ group, j.job_id ≠ i) :
    lookupRow ((processGroup3 env st s group).jobTable) i =
      lookupRow st.jobTable i := by
  have hlog : (logFetch st (pyUpper s)).jobTable = st.jobTable := rfl
  simp only [processGroup3]
  split
  case h_1 e heq =>
    rw [foldl_marks_untouched _ (marksOwnJob_failAll ("yfinance error: " ++ e))
      group _ i hne, hlog]
  case h_2 df heq =>
    split
    · rw [foldl_marks_untouched _
        (marksOwnJob_failAll "No data returned from yfinance") group _ i hne,
        hlog]
    · rw [foldl_marks_untouched _ (marksOwnJob_processDate3 env (pyUpper s) df)
        group _ i hne, hlog]

theorem runGroups3Aux_untouched (env : Env) (jobs : List Job) :
    ∀ (ks : List String) (st : EngState) (i : Nat),
      (∀ s ∈ ks, ∀ j ∈ jobs.filter (fun j => j.symbol == s), j.job_id ≠ i) →
      lookupRow ((runGroups3Aux env jobs ks st).jobTable) i =
        lookupRow st.jobTable i := by
  intro ks
  induction ks with
  | nil => intro st i _; rfl
  | cons s0 ks ih =>
    intro st i hne
    simp only [runGroups3Aux]
    rw [ih _ i (fun s hs => hne s (List.mem_cons_of_mem s0 hs)),
      processGroup3_untouched env st s0 _ i (hne s0 (List.mem_cons_self s0 ks))]

/-! ## Rate-limiter closed-form runs -/

theorem runRL_under_cap (rest : List ℚ) :
    ∀ (n c : Nat), c + n ≤ 75 →
      runRL 75 60 ⟨c, 0⟩ 0 (List.replicate n 0 ++ rest) =
        List.replicate n 0 ++ runRL 75 60 ⟨c + n, 0⟩ 0 rest := by
  intro n
  induction n with
  | zero => intro c _; simp
  | succ n ih =>
    intro c hc
    rw [List.replicate_succ, List.cons_append, runRL]
    have hmax : max (0:ℚ) 0 = 0 := max_self 0
    have hcond : ¬(75 ≤ c ∧ (0:ℚ) - 0 < 60) := by
      rintro ⟨h75, -⟩
      omega
    simp only [hmax, rlAcquire, if_neg hcond]
    rw [ih (c + 1) (by omega)]
    have : c + 1 + n = c + (n + 1) := by omega
    rw [this, List.cons_append]

theorem runRL_expired_window :
    ∀ (m : Nat) (c : Nat) (clock : ℚ), 75 ≤ c → clock ≤ 60 →
      runRL 75 60 ⟨c, 0⟩ clock (List.replicate m 60) = List.replicate m 60 := by
  intro m
  induction m with
  | zero => intro c clock _ _; simp [runRL]
  | succ m ih =>
    intro c clock hc hclock
    rw [List.replicate_succ, runRL]
    have hmax : max clock (60:ℚ) = 60 := max_eq_right hclock
    have hcond : ¬(75 ≤ c ∧ (60:ℚ) - 0 < 60) := by
      rintro ⟨-, h60⟩
      norm_num at h60
    simp only [hmax, rlAcquire, if_neg hcond]
    rw [ih (c + 1) 60 (by omega) le_rfl]

theorem countP_replicate (p : ℚ → Bool) (a : ℚ) :
    ∀ n, (List.replicate n a).countP p = if p a then n else 0 := by
  intro n
  induction n with
  | zero => simp
  | succ n ih =>
    rw [List.replicate_succ, List.countP_cons]
    cases hp : p a
    · simp only [hp] at ih ⊢
      simp [ih]
    · simp only [hp] at ih ⊢
      simp [ih]

/-! ## Claim theorems -/

/-- C1: in every single-date run that completes without a fatal abort
(a `some` final state) and in every multi-date run, every job of the loaded
batch ends the run with a terminal status — SUCCESS or FAILED — recorded
through the status-update operation; no loaded job is left PENDING. -/
theorem claim_C1_terminal_status :
    (∀ (env : Env) (tdate : String) (jobs : List Job)
      (prices : List PriceRecord) (stF : EngState),
      runJobs1 env tdate (initState jobs prices) jobs = some stF →
      ∀ j ∈ jobs, terminalTbl stF.jobTable j.job_id) ∧
    (∀ (env : Env) (jobs : List Job) (prices : List PriceRecord),
      ∀ j ∈ jobs,
        terminalTbl (runGroups2 env jobs (initState jobs prices)).jobTable
          j.job_id) := by
  constructor
  · intro env tdate jobs prices stF h j hj
    exact (runJobs1_props env tdate jobs _ stF h).2.2 j hj
      (tableHas_init jobs prices j hj)
  · intro env jobs prices j hj
    have hkey : j.symbol ∈ dedupKeys (jobs.map (·.symbol)) :=
      (mem_dedupKeys _ _).mpr (List.mem_map_of_mem _ hj)
    have hgrp : j ∈ jobs.filter (fun x => x.symbol == j.symbol) :=
      List.mem_filter.mpr ⟨hj, by simp⟩
    exact (runGroups2Aux_props env jobs (dedupKeys (jobs.map (·.symbol))) _).2.2
      j.symbol hkey j hgrp (tableHas_init jobs prices j hj)

/-- C1 witness: a concrete three-job batch; job 1 through the single-date
engine and job 3 through the multi-date engine both end terminal. -/
theorem claim_C1_witness :
    terminalTbl ((runJobs1 envW "2025-06-23" (initState jobsW []) jobsW).getD
      (initState jobsW [])).jobTable 1 ∧
    terminalTbl (runGroups2 envW jobsW (initState jobsW [])).jobTable 3 :=
  ⟨claim_C1_terminal_status.1 envW "2025-06-23" jobsW [] _ (by rfl) jobB
      (by decide),
   claim_C1_terminal_status.2 envW jobsW [] ⟨3, "MSFT", "2025-06-23"⟩
      (by decide)⟩

/-- C2: upserting a record into a table with no row of its
`(symbol, trade_date)` key inserts it; a second upsert of the same key
reports `already_existed`, leaves the table (hence the first record's
fields) untouched, and exactly one row with that key exists. -/
theorem claim_C2_upsert_idempotent (tbl : List PriceRecord) (r r2 : PriceRecord)
    (h0 : tbl.any (fun x => sameKey x r) = false)
    (hsym : r2.symbol = r.symbol) (hdt : r2.trade_date = r.trade_date) :
    upsert tbl r = (UpsertResult.inserted, tbl ++ [r]) ∧
    upsert (tbl ++ [r]) r2 = (UpsertResult.already_existed, tbl ++ [r]) ∧
    ((tbl ++ [r]).filter (fun x => sameKey x r)).length = 1 := by
  have hr2 : sameKey r r2 = true := by simp [sameKey, hsym, hdt]
  have hrr : sameKey r r = true := by simp [sameKey]
  refine ⟨by simp [upsert, h0], ?_, ?_⟩
  · have hany : (tbl ++ [r]).any (fun x => sameKey x r2) = true := by
      rw [List.any_append]
      simp [hr2]
    simp [upsert, hany]
  · rw [List.filter_append]
    have h1 : tbl.filter (fun x => sameKey x r) = [] := by
      rw [List.filter_eq_nil_iff]
      intro a ha
      have := (List.any_eq_false.mp h0) a ha
      simpa using this
    rw [h1]
    simp [hrr]

/-- C2 witness: inserting a concrete record into an empty table, then a
second record with the same key but different fields. -/
theorem claim_C2_witness :
    upsert ([] : List PriceRecord) prA = (UpsertResult.inserted, [] ++ [prA]) ∧
    upsert ([] ++ [prA]) prA2 = (UpsertResult.already_existed, [] ++ [prA]) ∧
    (([] ++ [prA]).filter (fun x => sameKey x prA)).length = 1 :=
  claim_C2_upsert_idempotent [] prA prA2 (by decide) (by decide) (by decide)

/-- C6: in all three variants, a successfully fetched series lacking the
job's trade date marks the job FAILED with exactly the literal message
"No data for trade_date (market closed?)". -/
theorem claim_C6_missing_date_message :
    (∀ (env : Env) (tdate : String) (st : EngState) (job : Job)
      (series : RawSeries),
      st.cache.lookup (pyUpper job.symbol) = some series →
      series.lookup tdate = none →
      processJob1 env tdate st job =
        some (failJob st job "No data for trade_date (market closed?)")) ∧
    (∀ (env : Env) (symU : String) (series : RawSeries) (st : EngState)
      (job : Job),
      series.lookup job.trade_date = none →
      processDate2 env symU series st job =
        failJob st job "No data for trade_date (market closed?)") ∧
    (∀ (env : Env) (symU : String) (df : YFrame) (st : EngState) (job : Job),
      df.lookup job.trade_date = none →
      processDate3 env symU df st job =
        failJob st job "No data for trade_date (market closed?)") := by
  refine ⟨?_, ?_, ?_⟩
  · intro env tdate st job series hc hm
    simp only [processJob1, hc, processJob1Body, hm]
  · intro env symU series st job hm
    simp only [processDate2, hm]
  · intro env symU df st job hm
    simp only [processDate3, hm]

/-- C6 witness: a date missing from a concretely fetched series in each of
the three variants yields the literal market-closed FAILED message. -/
theorem claim_C6_witness :
    processJob1 envW "2025-07-01" stCached jobB =
      some (failJob stCached jobB "No data for trade_date (market closed?)") ∧
    processDate2 envW "AAPL" seriesGood (initState [jobB] [])
        ⟨1, "AAPL", "2025-07-01"⟩ =
      failJob (initState [jobB] []) ⟨1, "AAPL", "2025-07-01"⟩
        "No data for trade_date (market closed?)" ∧
    processDate3 envW "IBM" yframeW (initState [jobB] [])
        ⟨1, "IBM", "2025-07-01"⟩ =
      failJob (initState [jobB] []) ⟨1, "IBM", "2025-07-01"⟩
        "No data for trade_date (market closed?)" :=
  ⟨claim_C6_missing_date_message.1 envW "2025-07-01" stCached jobB seriesGood
      (by rfl) (by rfl),
   claim_C6_missing_date_message.2.1 envW "AAPL" seriesGood (initState [jobB] [])
      ⟨1, "AAPL", "2025-07-01"⟩ (by rfl),
   claim_C6_missing_date_message.2.2 envW "IBM" yframeW (initState [jobB] [])
      ⟨1, "IBM", "2025-07-01"⟩ (by rfl)⟩

/-- C7: in the multi-date engine the provider is invoked exactly once per
symbol group — the whole fetch log is one entry per distinct symbol, and a
symbol with K jobs (K distinct dates) is counted once; in the single-date
engine a cache hit performs no fetch at all. -/
theorem claim_C7_fetch_once :
    (∀ (env : Env) (jobs : List Job) (st : EngState),
      (runGroups2 env jobs st).fetchLog =
        st.fetchLog ++ (dedupKeys (jobs.map (·.symbol))).map pyUpper) ∧
    (∀ (env : Env) (jobs : List Job) (prices : List PriceRecord) (s : String),
      (∀ j ∈ jobs, pyUpper j.symbol = j.symbol) →
      s ∈ jobs.map (·.symbol) →
      ((runGroups2 env jobs (initState jobs prices)).fetchLog).count s = 1) ∧
    (∀ (env : Env) (tdate : String) (st : EngState) (job : Job)
      (series : RawSeries) (st' : EngState),
      st.cache.lookup (pyUpper job.symbol) = some series →
      processJob1 env tdate st job = some st' →
      st'.fetchLog = st.fetchLog) := by
  refine ⟨?_, ?_, ?_⟩
  · intro env jobs st
    exact runGroups2Aux_fetchLog env jobs _ st
  · intro env jobs prices s hup hs
    have hlog := runGroups2Aux_fetchLog env jobs
      (dedupKeys (jobs.map (·.symbol))) (initState jobs prices)
    have hmap : (dedupKeys (jobs.map (·.symbol))).map pyUpper =
        dedupKeys (jobs.map (·.symbol)) := by
      have hfix : ∀ k ∈ dedupKeys (jobs.map (·.symbol)), pyUpper k = k := by
        intro k hk
        obtain ⟨j, hj, hjk⟩ := List.mem_map.mp ((mem_dedupKeys _ _).mp hk)
        exact hjk ▸ hup j hj
      calc (dedupKeys (jobs.map (·.symbol))).map pyUpper
          = (dedupKeys (jobs.map (·.symbol))).map id := List.map_congr_left hfix
        _ = dedupKeys (jobs.map (·.symbol)) := List.map_id _
    show ((runGroups2Aux env jobs _ _).fetchLog).count s = 1
    rw [hlog, hmap]
    have : (initState jobs prices).fetchLog = [] := rfl
    rw [this, List.nil_append]
    exact count_dedupKeys _ s hs
  · exact fun env tdate st job series st' hc h =>
      processJob1_cached_no_fetch env tdate st job series st' hc h

/-- C7 witness: in the concrete three-job batch (two AAPL dates, one MSFT),
AAPL appears exactly once in the fetch log, and a cache-hit job performs no
fetch. -/
theorem claim_C7_witness :
    ((runGroups2 envW jobsW (initState jobsW [])).fetchLog).count "AAPL" = 1 ∧
    ((processJob1 envW "2025-06-23" stCached jobB).getD stCached).fetchLog =
      stCached.fetchLog :=
  ⟨claim_C7_fetch_once.2.1 envW jobsW [] "AAPL" (by decide) (by decide),
   claim_C7_fetch_once.2.2 envW "2025-06-23" stCached jobB seriesGood _
      (by rfl) (by rfl)⟩

/-- C10: every record the fallback recovery run persists (starting from an
empty price table) has dividend_amount 0.0 and split_coefficient 1.0 — the
fallback path hardcodes both. -/
theorem claim_C10_fallback_defaults (env : Env) (jobs : List Job)
    (r : PriceRecord)
    (h : r ∈ (runGroups3 env jobs (initState jobs [])).priceTable) :
    r.dividend_amount = 0 ∧ r.split_coefficient = 1 := by
  rcases runGroups3Aux_prices env jobs _ _ r h with h | h
  · simp [initState] at h
  · exact h

/-- C10 witness: the one record persisted for a concrete IBM recovery job
has the hardcoded dividend/split defaults. -/
theorem claim_C10_witness :
    (buildRow3 "IBM" "2025-06-23" yrowW).dividend_amount = 0 ∧
    (buildRow3 "IBM" "2025-06-23" yrowW).split_coefficient = 1 :=
  claim_C10_fallback_defaults envW jobs3W _ (by decide)

/-- C3 counterexample: a provider entry present for the trade date but
missing the required field `1. open` makes the single-date run abort with an
uncaught exception (`none`) instead of marking the job FAILED and
continuing — refuting "such an entry never crashes the run". -/
theorem claim_C3_counterexample :
    runJobs1 envBadOpen "2025-06-23" (initState [jobB] []) [jobB] = none := by
  rfl

/-- C3 amended: in the multi-date variant a malformed entry is caught at the
job boundary — the job is marked FAILED with a message carrying the
missing-field / coercion error and the run continues; in the primary
single-date variant row construction sits outside the try block, so the
same entry raises an uncaught error that aborts the run. A missing
`1. open` surfaces as the KeyError naming that field in both builders. -/
theorem claim_C3_amended :
    (∀ (env : Env) (symU : String) (series : RawSeries) (st : EngState)
      (job : Job) (rec : RawEntry) (e : String),
      series.lookup job.trade_date = some rec →
      buildRow2 symU job.trade_date rec = .error e →
      processDate2 env symU series st job =
        failJob st job ("Insert error: " ++ e)) ∧
    (∀ (env : Env) (tdate : String) (st : EngState) (job : Job)
      (series : RawSeries) (rec : RawEntry) (e : String),
      st.cache.lookup (pyUpper job.symbol) = some series →
      series.lookup tdate = some rec →
      buildRow1 (pyUpper job.symbol) tdate rec = .error e →
      processJob1 env tdate st job = none) ∧
    (∀ (rec : RawEntry) (s t : String), rec.lookup "1. open" = none →
      buildRow1 s t rec = .error "KeyError: 1. open" ∧
      buildRow2 s t rec = .error "KeyError: 1. open") := by
  refine ⟨?_, ?_, ?_⟩
  · intro env symU series st job rec e hl hb
    simp only [processDate2, hl, hb]
  · intro env tdate st job series rec e hc hl hb
    simp only [processJob1, hc, processJob1Body, hl, hb]
  · intro rec s t h
    constructor
    · simp only [buildRow1, reqField, h]
      rfl
    · simp only [buildRow2, reqField, h]
      rfl

/-- C3 amended witness: the concrete malformed entry is caught in the
multi-date step (FAILED, run continues) and aborts the single-date step. -/
theorem claim_C3_witness :
    processDate2 envBadOpen "AAPL" seriesBadOpen (initState [jobB] []) jobB =
      failJob (initState [jobB] []) jobB ("Insert error: " ++ "KeyError: 1. open") ∧
    processJob1 envBadOpen "2025-06-23" stCachedBad jobB = none ∧
    buildRow1 "AAPL" "2025-06-23" recBad = .error "KeyError: 1. open" :=
  ⟨claim_C3_amended.1 envBadOpen "AAPL" seriesBadOpen (initState [jobB] [])
      jobB recBad "KeyError: 1. open" (by rfl) (by rfl),
   claim_C3_amended.2.1 envBadOpen "2025-06-23" stCachedBad jobB seriesBadOpen
      recBad "KeyError: 1. open" (by rfl) (by rfl) (by rfl),
   (claim_C3_amended.2.2 recBad "AAPL" "2025-06-23" (by rfl)).1⟩

/-- C4 counterexample: with the source constants (75 requests/minute,
60-second cooldown), 75 requests issued at time 0 followed by 151 request
arrivals at time 60 all pass the gate immediately — once the counter
reaches the maximum only after the window has expired, the window start is
never reset, so the rolling window [60, 120) carries 151 > 2 × 75 calls,
beyond the claimed single-window boundary slack. -/
theorem claim_C4_counterexample :
    2 * 75 < ((runRL 75 60 ⟨0, 0⟩ 0
        (List.replicate 75 0 ++ List.replicate 151 60)).countP
      (fun t => decide ((60:ℚ) ≤ t) && decide (t < 120))) := by
  have h1 := runRL_under_cap (List.replicate 151 60) 75 0 (by omega)
  rw [Nat.zero_add] at h1
  have h2 := runRL_expired_window 151 75 0 le_rfl (by norm_num)
  rw [h1, h2, List.countP_append, countP_replicate, countP_replicate]
  have hp0 : (decide ((60:ℚ) ≤ 0) && decide ((0:ℚ) < 120)) = false := by decide
  have hp60 : (decide ((60:ℚ) ≤ 60) && decide ((60:ℚ) < 120)) = true := by decide
  rw [hp0, hp60]
  simp

/-- C4 amended: the gate mechanism is as described — when the counter has
reached the maximum and less than 60 seconds have elapsed since window
start, the flow suspends for the cooldown minus elapsed time (clamped to at
least 0) and the window restarts at the wake time with the counter holding
only the newly issued request; otherwise the request is issued at once and
only the counter advances. (The rolling-window bound itself fails; see the
counterexample.) -/
theorem claim_C4_rate_gate :
    (∀ (rl : RL) (now : ℚ), 75 ≤ rl.counter → now - rl.windowStart < 60 →
      rlAcquire 75 60 rl now =
        (now + max (60 - (now - rl.windowStart)) 0,
         ⟨1, now + max (60 - (now - rl.windowStart)) 0⟩)) ∧
    (∀ (rl : RL) (now : ℚ), ¬(75 ≤ rl.counter ∧ now - rl.windowStart < 60) →
      rlAcquire 75 60 rl now = (now, ⟨rl.counter + 1, rl.windowStart⟩)) := by
  constructor
  · intro rl now h1 h2
    simp only [rlAcquire, if_pos (And.intro h1 h2)]
  · intro rl now h
    simp only [rlAcquire, if_neg h]

/-- C4 amended witness: a saturated window at elapsed 30 s sleeps 30 s and
restarts; an unsaturated one proceeds immediately. -/
theorem claim_C4_witness :
    rlAcquire 75 60 ⟨75, 0⟩ 30 = (60, ⟨1, 60⟩) ∧
    rlAcquire 75 60 ⟨0, 0⟩ 5 = (5, ⟨1, 0⟩) := by
  constructor
  · rw [claim_C4_rate_gate.1 ⟨75, 0⟩ 30 (by norm_num) (by norm_num)]
    norm_num
  · rw [claim_C4_rate_gate.2 ⟨0, 0⟩ 5 (by simp)]

/-- C5 counterexample: the single-date script catches the interrupt, rolls
back, closes the connection and falls off the end of the file — the process
exits with status 0, refuting "exit the process with a non-zero status". -/
theorem claim_C5_counterexample :
    (run1Interrupted envW "2025-06-23" jobsW [] 1).2 = 0 := rfl

/-- C5 amended: an interrupt during job (or group) k stops further
processing and discards the in-flight job's uncommitted work — the
committed state is exactly the state after the completed prefix: already
committed jobs keep their terminal statuses and untouched jobs remain
PENDING. The multi-date and fallback recovery variants exit with status 1
(`SystemExit(1)`), but the single-date variant exits with status 0. -/
theorem claim_C5_interrupt :
    (∀ (env : Env) (tdate : String) (jobs : List Job)
      (prices : List PriceRecord) (k : Nat) (stK : EngState),
      runJobs1 env tdate (initState jobs prices) (jobs.take k) = some stK →
      run1Interrupted env tdate jobs prices k = (some stK, 0) ∧
      (∀ j ∈ jobs.take k, terminalTbl stK.jobTable j.job_id) ∧
      (∀ j ∈ jobs, (∀ j2 ∈ jobs.take k, j2.job_id ≠ j.job_id) →
        lookupRow stK.jobTable j.job_id = some (Status.PENDING, none))) ∧
    (∀ (env : Env) (jobs : List Job) (prices : List PriceRecord) (k : Nat),
      (run2Interrupted env jobs prices k).2 = 1 ∧
      (∀ j ∈ jobs,
        (∀ s ∈ (dedupKeys (jobs.map (·.symbol))).take k,
          ∀ j2 ∈ jobs.filter (fun x => x.symbol == s), j2.job_id ≠ j.job_id) →
        lookupRow (run2Interrupted env jobs prices k).1.jobTable j.job_id =
          some (Status.PENDING, none))) ∧
    (∀ (env : Env) (jobs : List Job) (prices : List PriceRecord) (k : Nat),
      (run3Interrupted env jobs prices k).2 = 1 ∧
      (∀ j ∈ jobs,
        (∀ s ∈ (dedupKeys (jobs.map (·.symbol))).take k,
          ∀ j2 ∈ jobs.filter (fun x => x.symbol == s), j2.job_id ≠ j.job_id) →
        lookupRow (run3Interrupted env jobs prices k).1.jobTable j.job_id =
          some (Status.PENDING, none))) := by
  refine ⟨?_, ?_, ?_⟩
  · intro env tdate jobs prices k stK h
    refine ⟨by simp [run1Interrupted, h], ?_, ?_⟩
    · intro j hj
      exact (runJobs1_props env tdate _ _ _ h).2.2 j hj
        (tableHas_init jobs prices j (List.take_subset k jobs hj))
    · intro j hj hne
      rw [runJobs1_untouched env tdate _ _ _ _ h hne]
      exact lookupRow_init_pending jobs prices j.job_id
        (tableHas_init jobs prices j hj)
  · intro env jobs prices k
    refine ⟨rfl, ?_⟩
    intro j hj hne
    show lookupRow ((runGroups2Aux env jobs _ (initState jobs prices)).jobTable)
      j.job_id = _
    rw [runGroups2Aux_untouched env jobs _ _ _ hne]
    exact lookupRow_init_pending jobs prices j.job_id
      (tableHas_init jobs prices j hj)
  · intro env jobs prices k
    refine ⟨rfl, ?_⟩
    intro j hj hne
    show lookupRow ((runGroups3Aux env jobs _ (initState jobs prices)).jobTable)
      j.job_id = _
    rw [runGroups3Aux_untouched env jobs _ _ _ hne]
    exact lookupRow_init_pending jobs prices j.job_id
      (tableHas_init jobs prices j hj)

/-- C5 amended witness: with the concrete batches, an interrupt before any
group leaves job 1 PENDING in the multi-date run (exit 1) and job 9 PENDING
in the fallback recovery run (exit 1), and after one completed job in the
single-date run that job is terminal. -/
theorem claim_C5_witness :
    lookupRow ((run2Interrupted envW jobsW [] 0).1.jobTable) 1 =
      some (Status.PENDING, none) ∧
    terminalTbl ((runJobs1 envW "2025-06-23" (initState jobsW [])
      (jobsW.take 1)).getD (initState jobsW [])).jobTable 1 ∧
    (run3Interrupted envW jobs3W [] 0).2 = 1 ∧
    lookupRow ((run3Interrupted envW jobs3W [] 0).1.jobTable) 9 =
      some (Status.PENDING, none) :=
  ⟨(claim_C5_interrupt.2.1 envW jobsW [] 0).2 jobB (by decide) (by decide),
   ((claim_C5_interrupt.1 envW "2025-06-23" jobsW [] 1 _ (by rfl)).2.1) jobB
      (by decide),
   (claim_C5_interrupt.2.2 envW jobs3W [] 0).1,
   (claim_C5_interrupt.2.2 envW jobs3W [] 0).2 ⟨9, "IBM", "2025-06-23"⟩
      (by decide) (by decide)⟩

/-- C8 counterexample: a present-but-null `7. dividend amount` makes the
single-date normalizer raise (TypeError inside `float()`) rather than
default to 0.0 — refuting "a null value in either field never crashes
normalization". -/
theorem claim_C8_counterexample :
    buildRow1 "AAPL" "2025-06-23" recNull =
      .error "TypeError: float argument was None" := by rfl

/-- C8 amended: an absent dividend/split field defaults to 0.0 / 1.0 in
both normalizers; a null value defaults (and never crashes) only in the
multi-date normalizer, while the single-date normalizer raises a type error
on null; a present numeric value is rounded to 4 decimal places by both. -/
theorem claim_C8_defaults :
    (∀ (rec : RawEntry) (k : String), rec.lookup k = none →
      normField1 rec k 0 = .ok 0 ∧ normField2 rec k 0 = .ok 0 ∧
      normField1 rec k 1 = .ok 1 ∧ normField2 rec k 1 = .ok 1) ∧
    (∀ (rec : RawEntry) (k : String) (d : ℚ), rec.lookup k = some .null →
      normField2 rec k d = .ok (round4 d) ∧
      normField1 rec k d = .error "TypeError: float argument was None") ∧
    (∀ (rec : RawEntry) (k : String) (d q : ℚ),
      rec.lookup k = some (.numStr q) →
      normField1 rec k d = .ok (round4 q) ∧
      normField2 rec k d = .ok (round4 q)) := by
  have r0 : round4 0 = 0 := by decide
  have r1 : round4 1 = 1 := by decide
  refine ⟨?_, ?_, ?_⟩
  · intro rec k h
    simp [normField1, normField2, h, r0, r1]
  · intro rec k d h
    simp [normField1, normField2, h, truthy, pyFloat, Except.map]
  · intro rec k d q h
    simp [normField1, normField2, h, truthy, pyFloat, Except.map]

/-- C8 amended witness: concrete entries exercising the absent, null and
present cases of both normalizers. -/
theorem claim_C8_witness :
    normField1 recBad "7. dividend amount" 0 = .ok 0 ∧
    normField2 recNull "7. dividend amount" 0 = .ok (round4 0) ∧
    normField1 recNull "7. dividend amount" 0 =
      .error "TypeError: float argument was None" ∧
    normField1 recGood "7. dividend amount" 0 = .ok (round4 (mkRat 1 4)) :=
  ⟨(claim_C8_defaults.1 recBad "7. dividend amount" (by rfl)).1,
   (claim_C8_defaults.2.1 recNull "7. dividend amount" 0 (by rfl)).1,
   (claim_C8_defaults.2.1 recNull "7. dividend amount" 0 (by rfl)).2,
   (claim_C8_defaults.2.2 recGood "7. dividend amount" 0 (mkRat 1 4)
      (by rfl)).1⟩

/-- C9: a batch download failing on attempts 1..3 is retried exactly
MAX_RETRIES = 3 times with backoff 2·attempt seconds between attempts and
then reported exhausted with the last error; an immediate success uses one
attempt and no backoff; on exhaustion every symbol of the batch is logged
FAILED with a "batch-error: "-prefixed message and processing continues
with the next batch. -/
theorem claim_C9_batch_retry :
    (∀ (res : Nat → Except String YFData) (e1 e2 e3 : String),
      res 1 = .error e1 → res 2 = .error e2 → res 3 = .error e3 →
      runBatch res 3 = .exhausted e3 [2 * 1, 2 * 2]) ∧
    (∀ (res : Nat → Except String YFData) (d : YFData),
      res 1 = .ok d → runBatch res 3 = .success d 1 []) ∧
    (∀ (res : Nat → Nat → Except String YFData) (td : String) (i : Nat)
      (b : List String) (bs : List (List String)) (e : String)
      (sl : List Nat),
      runBatch (res i) 3 = .exhausted e sl →
      processBatchesAux res 3 td i (b :: bs) =
        b.map (fun sym => ⟨sym, "FAILED", "batch-error: " ++ e⟩) ++
          processBatchesAux res 3 td (i + 1) bs) := by
  refine ⟨?_, ?_, ?_⟩
  · intro res e1 e2 e3 h1 h2 h3
    simp only [runBatch, attemptLoop, h1, h2, h3]
    rfl
  · intro res d h1
    simp only [runBatch, attemptLoop, h1]
  · intro res td i b bs e sl h
    simp only [processBatchesAux, h]

/-- C9 witness: a concretely always-failing download exhausts three
attempts with backoff [2, 4]; an immediately successful one stops after
attempt 1; exhaustion of the first two-symbol batch logs both symbols
FAILED with the batch-error prefix and recurses into the next batch. -/
theorem claim_C9_witness :
    runBatch resFailW 3 = .exhausted "ConnectionError" [2 * 1, 2 * 2] ∧
    runBatch resOkW 3 = .success [] 1 [] ∧
    processBatchesAux res2FailW 3 "2025-06-11" 0 [["AAA", "BBB"], ["CCC"]] =
      (["AAA", "BBB"].map (fun sym =>
        ⟨sym, "FAILED", "batch-error: " ++ "ConnectionError"⟩)) ++
        processBatchesAux res2FailW 3 "2025-06-11" 1 [["CCC"]] :=
  ⟨claim_C9_batch_retry.1 resFailW "ConnectionError" "ConnectionError"
      "ConnectionError" rfl rfl rfl,
   claim_C9_batch_retry.2.1 resOkW [] rfl,
   claim_C9_batch_retry.2.2 res2FailW "2025-06-11" 0 ["AAA", "BBB"] [["CCC"]]
      "ConnectionError" [2 * 1, 2 * 2] (by rfl)⟩

end StockUpdate
